import Mathlib

/-!
Verification of the aggregation, filtering, ingestion and export layer of the
temple transactions dashboard.

The TypeScript source is shallowly embedded: numbers are modelled as exact
rationals, machine strings as Lean strings, JavaScript objects used as
string-keyed maps as insertion-ordered association lists, and fallible
operations as Except or Option values.  JavaScript builtins that the source
relies on (parseInt, parseFloat, Date construation and decomposition,
toFixed, Array.prototype.sort with a numeric comparator) are modelled by
executable Lean functions; each model notes the simplifications it makes.
-/

set_option maxRecDepth 4000

namespace Dashboard

/- ===================== JS character and digit primitives ===================== -/

/-- Decimal digit test on a character, by code point (48 to 57). -/
def isDigitChar (c : Char) : Bool := decide (48 ≤ c.toNat) && decide (c.toNat ≤ 57)

/-- Whitespace test used by the models of parseInt and parseFloat. -/
def isSpaceChar (c : Char) : Bool := c == ' ' || c == '\t' || c == '\n' || c == '\r'

/-- Decimal digits of a natural number, most significant first, with explicit
fuel so the function reduces by iota in the kernel. -/
def natDigitsF : Nat → Nat → List Char
  | 0, _ => []
  | fuel+1, n =>
    if n < 10 then [Char.ofNat (48 + n)]
    else natDigitsF fuel (n / 10) ++ [Char.ofNat (48 + n % 10)]

/-- Decimal digits of a natural number, most significant first. -/
def natDigits (n : Nat) : List Char := natDigitsF (n + 1) n

/-- Value of a list of digit characters read in base 10. -/
def digitsVal (cs : List Char) : Nat := cs.foldl (fun a c => a * 10 + (c.toNat - 48)) 0

/-- Decimal string of a natural number. -/
def natToDecString (n : Nat) : String := String.mk (natDigits n)

/-- Decimal string of an integer, with a leading minus sign when negative. -/
def intToDecString (z : Int) : String :=
  if z < 0 then String.mk ('-' :: natDigits z.natAbs) else String.mk (natDigits z.natAbs)

/- ===================== models of parseInt and parseFloat ===================== -/

/-- Value of the longest digit prefix of a character list, none when it is empty. -/
def parseLeadingNat (cs : List Char) : Option Nat :=
  let ds := cs.takeWhile isDigitChar
  if ds.isEmpty then none else some (digitsVal ds)

/-- Model of JS parseInt with radix 10: skip whitespace, optional sign, then the
longest decimal digit prefix; NaN (none) when no digit follows.  The hexadecimal
autodetection of parseInt without an explicit radix is not modelled; the source
always passes radix 10. -/
def jsParseIntCore : List Char → Option Int
  | [] => none
  | c :: rest =>
    if c = '-' then
      match parseLeadingNat rest with
      | none => none
      | some n => some (-(n : Int))
    else if c = '+' then
      match parseLeadingNat rest with
      | none => none
      | some n => some ((n : Int))
    else
      match parseLeadingNat (c :: rest) with
      | none => none
      | some n => some ((n : Int))

def jsParseInt (s : String) : Option Int :=
  jsParseIntCore (s.toList.dropWhile isSpaceChar)

/-- Model of JS parseFloat: skip whitespace, optional sign, decimal digits with an
optional fractional part and an optional exponent; NaN (none) when no digit is
found.  Infinity literals are not modelled (no claim exercises them). -/
def jsParseFloat (s : String) : Option ℚ :=
  let cs0 := s.toList.dropWhile isSpaceChar
  let signAndRest : ℚ × List Char :=
    match cs0 with
    | '-' :: r => (-1, r)
    | '+' :: r => (1, r)
    | r => (1, r)
  let sign := signAndRest.1
  let cs1 := signAndRest.2
  let intDs := cs1.takeWhile isDigitChar
  let cs2 := cs1.drop intDs.length
  let fracDs : List Char :=
    match cs2 with
    | '.' :: r => r.takeWhile isDigitChar
    | _ => []
  let cs3 : List Char :=
    match cs2 with
    | '.' :: r => r.drop fracDs.length
    | _ => cs2
  if intDs.isEmpty && fracDs.isEmpty then none
  else
    let mant : ℚ :=
      sign * ((digitsVal intDs : ℚ) + (digitsVal fracDs : ℚ) / (10 : ℚ) ^ fracDs.length)
    let expVal : Int :=
      match cs3 with
      | 'e' :: '-' :: r => match parseLeadingNat r with | some n => -(n : Int) | none => 0
      | 'e' :: '+' :: r => match parseLeadingNat r with | some n => (n : Int) | none => 0
      | 'e' :: r => match parseLeadingNat r with | some n => (n : Int) | none => 0
      | 'E' :: '-' :: r => match parseLeadingNat r with | some n => -(n : Int) | none => 0
      | 'E' :: '+' :: r => match parseLeadingNat r with | some n => (n : Int) | none => 0
      | 'E' :: r => match parseLeadingNat r with | some n => (n : Int) | none => 0
      | _ => 0
    some (mant * (10 : ℚ) ^ expVal)

/- ===================== model of String.prototype.split on a slash ===================== -/

/-- Accumulator-style split of a character list on the slash character. -/
def splitSlashAux : List Char → List Char → List (List Char)
  | [], acc => [acc.reverse]
  | c :: cs, acc =>
    if c = '/' then acc.reverse :: splitSlashAux cs [] else splitSlashAux cs (c :: acc)

/-- Model of the JS call s.split of the slash separator. -/
def jsSplitSlash (s : String) : List String :=
  (splitSlashAux s.toList []).map String.mk

/- ===================== civil calendar arithmetic ===================== -/

/-- Day count of the first k March-based years of a 400-year era. -/
def yearStartN (k : Nat) : Nat := 365 * k + k / 4 - k / 100

/-- Numerator of the year-of-era formula. -/
def hstep (doe : Nat) : Nat := doe - doe / 1460 + doe / 36524 - doe / 146096

/-- Year of era from day of era, for day of era in 0..146096. -/
def yoeOfDoe (doe : Nat) : Nat := hstep doe / 365

/-- Civil date (year, month, day) from days since the Unix epoch, by the standard
era-based algorithm; this models the local-date decomposition that the source
reads off a JS Date through getFullYear, getMonth plus one, and getDate. -/
def civilFromDays (z : Int) : Int × Int × Int :=
  let era := (z + 719468) / 146097
  let doe : Nat := ((z + 719468) % 146097).toNat
  let yoe : Nat := yoeOfDoe doe
  let doy : Nat := doe - (365 * yoe + yoe / 4 - yoe / 100)
  let mp : Nat := (5 * doy + 2) / 153
  let d : Nat := doy - (153 * mp + 2) / 5 + 1
  let m : Nat := if mp < 10 then mp + 3 else mp - 9
  (era * 400 + yoe + (if m ≤ 2 then 1 else 0), (m : Int), (d : Int))

/-- Days since the Unix epoch of a civil date, by the standard era-based
algorithm, for a month in 1..12; the day argument may be any integer and simply
shifts the result by days, exactly as the JS Date day argument does. -/
def daysFromCivil (y m d : Int) : Int :=
  let yp := y - (if m ≤ 2 then 1 else 0)
  let era := yp / 400
  let yoe : Int := yp - era * 400
  let mp : Int := if m ≤ 2 then m + 9 else m - 3
  let doy : Int := (153 * mp + 2) / 5 + d - 1
  let doe : Int := 365 * yoe + yoe / 4 - yoe / 100 + doy
  era * 146097 + doe - 719468

/- ===================== JS Date model ===================== -/

/-- Model of the JS Date value built by the constructor new Date with year, zero
based month index and day arguments: months are normalized by floor division, the
day argument shifts linearly, and a year argument in 0..99 is remapped to
1900..1999 as the ECMAScript constructor does.  The value is the number of days
since the Unix epoch of the resulting local midnight. -/
def jsMakeDate (year monthIdx day : Int) : Int :=
  let y := if 0 ≤ year ∧ year ≤ 99 then year + 1900 else year
  daysFromCivil (y + monthIdx / 12) (monthIdx % 12 + 1) 1 + (day - 1)

/-- Model of Date.prototype.getDay on a local-midnight day number; day zero of
the epoch was a Thursday, so the Sunday-based weekday index is this residue. -/
def jsGetDay (t : Int) : Int := (t + 4) % 7

/-- Embedding of DataProcessingService.formatDateForComparison: renders a date
as month, day and year in base ten separated by slashes. -/
def formatDateForComparison (t : Int) : String :=
  intToDecString (civilFromDays t).2.1 ++ "/" ++ intToDecString (civilFromDays t).2.2 ++
    "/" ++ intToDecString (civilFromDays t).1

/-- Embedding of DataProcessingService.parseDateString: split the string on
slashes, read the first three parts with parseInt as month, day and year, and
build the JS Date of new Date with those components; an unparseable component
makes the whole date invalid (none), because every arithmetic on NaN yields NaN
and a NaN time value is an invalid date. -/
def parseDateString (s : String) : Option Int :=
  let parts := jsSplitSlash s
  match (parts[0]?).bind jsParseInt, (parts[1]?).bind jsParseInt,
      (parts[2]?).bind jsParseInt with
  | some m, some d, some y => some (jsMakeDate y (m - 1) d)
  | _, _, _ => none

/- ===================== rounding and fixed-point formatting ===================== -/

/-- Round half away from zero: the rounding JS toFixed applies to a value that is
an exact decimal. -/
def jsRound (q : ℚ) : Int := if q < 0 then -(Rat.floor (-q + 1/2)) else Rat.floor (q + 1/2)

/-- Model of x.toFixed(2) on an exact rational: the value scaled by one hundred,
rounded, and printed with exactly two decimal places. -/
def jsToFixed2 (q : ℚ) : String :=
  let n := jsRound (q * 100)
  let a := n.natAbs
  (if n < 0 then "-" else "") ++ natToDecString (a / 100) ++ "." ++
    (if a % 100 < 10 then "0" else "") ++ natToDecString (a % 100)

/-- Model of Number(x.toFixed(1)) on an exact rational. -/
def jsToFixed1 (q : ℚ) : ℚ := (jsRound (q * 10) : ℚ) / 10

/-- Fractional decimal digits of a rational taken from the half-open unit
interval, cut off when the fuel runs out; JS prints the shortest float round
trip, which agrees with this on terminating decimals. -/
def fracDigitsF : Nat → ℚ → List Char
  | 0, _ => []
  | fuel+1, q =>
    if q = 0 then []
    else
      let d := Rat.floor (q * 10)
      Char.ofNat (48 + d.toNat) :: fracDigitsF fuel (q * 10 - (d : ℚ))

/-- Model of the JS number-to-string conversion used when a number is joined into
a CSV row: exact for integers and terminating decimals, which covers every value
the dashboard produces; a non-terminating expansion is cut at twenty digits. -/
def numToCell (q : ℚ) : String :=
  let a := |q|
  let ip := Rat.floor a
  let fp := a - (ip : ℚ)
  (if q < 0 then "-" else "") ++
    (if fp = 0 then natToDecString ip.toNat
     else natToDecString ip.toNat ++ "." ++ String.mk (fracDigitsF 20 fp))

/- ===================== data model ===================== -/

/-- Embedding of the IncomeRecord interface: one transaction row.  Amounts are
exact rationals standing for the JS numbers produced by parseFloat. -/
structure IncomeRecord where
  date : String
  department : String
  cash : ℚ
  online : ℚ
deriving DecidableEq

/-- Embedding of the ALL_DEPARTMENTS catalog from types/index.ts, in source
order. -/
def ALL_DEPARTMENTS : List String :=
  ["Guest House", "Govindas", "Gift Shop", "Kitchen", "Nitya Seva",
   "Gopal\x27s Sweet Shop", "Gaushala", "Railway BBT", "Vrinda\x27s Food Court",
   "Hundi", "Boat", "Other Donations"]

/-- Embedding of the DepartmentTotals interface. -/
structure DepartmentTotals where
  cash : ℚ
  online : ℚ
  total : ℚ
  hasData : Bool
deriving DecidableEq

/-- Embedding of DataProcessingService.calculateDepartmentTotals: exact string
match on the department, independent sums of cash and online, and the hasData
policy that demands at least one matching record and a positive total. -/
def calculateDepartmentTotals (data : List IncomeRecord) (departmentName : String) :
    DepartmentTotals :=
  let deptData := data.filter (fun r => r.department == departmentName)
  let totalCash := deptData.foldl (fun s r => s + r.cash) 0
  let totalOnline := deptData.foldl (fun s r => s + r.online) 0
  let totalIncome := totalCash + totalOnline
  { cash := totalCash, online := totalOnline, total := totalIncome,
    hasData := decide (0 < deptData.length) && decide (0 < totalIncome) }

/-- Embedding of the KPIData interface. -/
structure KPIData where
  totalRevenue : ℚ
  totalCash : ℚ
  totalOnline : ℚ
  cashPercentage : ℚ
  onlinePercentage : ℚ
  activeDepartments : Nat
  totalDepartments : Nat
deriving DecidableEq

/-- Embedding of DataProcessingService.calculateKPIs.  The JS Set built over the
mapped department names has as size the number of distinct strings, embedded as
the length of dedup; the percentage branches guard on a strictly positive total
revenue. -/
def calculateKPIs (data : List IncomeRecord) : KPIData :=
  let totalCash := data.foldl (fun s r => s + r.cash) 0
  let totalOnline := data.foldl (fun s r => s + r.online) 0
  let totalRevenue := totalCash + totalOnline
  let activeDepartments := (data.map (fun r => r.department)).dedup.length
  let cashPercentage :=
    if 0 < totalRevenue then jsToFixed1 (totalCash / totalRevenue * 100) else 0
  let onlinePercentage :=
    if 0 < totalRevenue then jsToFixed1 (totalOnline / totalRevenue * 100) else 0
  { totalRevenue := totalRevenue, totalCash := totalCash, totalOnline := totalOnline,
    cashPercentage := cashPercentage, onlinePercentage := onlinePercentage,
    activeDepartments := activeDepartments, totalDepartments := ALL_DEPARTMENTS.length }

/- ===================== analytics: grouping and selection ===================== -/

/-- Add an amount to the entry of a key in an association list ordered by
property creation: assigning into a plain JS object updates an existing key in
place and creates a new key after all existing ones.  Enumeration order of the
resulting object is modelled separately by jsEntries. -/
def addEntry (m : List (String × ℚ)) (k : String) (v : ℚ) : List (String × ℚ) :=
  match m with
  | [] => [(k, v)]
  | (k1, v1) :: rest => if k1 = k then (k1, v1 + v) :: rest else (k1, v1) :: addEntry rest k v

/-- Embedding of the forEach loops that accumulate revenue per date or per
department into a plain object, in property creation order. -/
def groupSums (key : IncomeRecord → String) (data : List IncomeRecord) :
    List (String × ℚ) :=
  data.foldl (fun m r => addEntry m (key r) (r.cash + r.online)) []

/-- Stable insertion of an entry into a descending-sorted list: the new entry,
which comes earlier in the original list, goes before the first entry whose
value does not exceed it. -/
def insertDesc (x : String × ℚ) : List (String × ℚ) → List (String × ℚ)
  | [] => [x]
  | y :: ys => if y.2 ≤ x.2 then x :: y :: ys else y :: insertDesc x ys

/-- Model of Array.prototype.sort with the numeric comparator that subtracts and
so orders by descending value: sort with a consistent comparator is stable, and
the unique stable descending permutation is what this insertion sort computes. -/
def sortEntriesDesc (l : List (String × ℚ)) : List (String × ℚ) := l.foldr insertDesc []

/-- First entry attaining the maximum value, scanning in insertion order: the
selector the spec describes for the tie-break policy. -/
def firstMaxEntry : List (String × ℚ) → Option (String × ℚ)
  | [] => none
  | x :: xs =>
    match firstMaxEntry xs with
    | none => some x
    | some m => if x.2 < m.2 then some m else some x

/-- Integer-index key test: a canonical base-ten numeral (no leading zero except
the single digit zero) whose value is at most 2 to the 32 minus 2; ECMAScript
objects enumerate exactly these keys ahead of all other string keys. -/
def isArrayIndexKey (s : String) : Bool :=
  match s.toList with
  | [] => false
  | c :: cs =>
    (c :: cs).all isDigitChar &&
    (decide (c ≠ '0') || decide (cs = [])) &&
    decide (digitsVal (c :: cs) ≤ 4294967294)

/-- Insertion of an entry into a list sorted ascending by the numeric value of
its integer-index key. -/
def insertAscByKey (x : String × ℚ) : List (String × ℚ) → List (String × ℚ)
  | [] => [x]
  | y :: ys =>
    if digitsVal x.1.toList ≤ digitsVal y.1.toList then x :: y :: ys
    else y :: insertAscByKey x ys

/-- Model of the enumeration order of Object.entries over a string-keyed object:
integer-index keys come first in ascending numeric order, then the remaining
keys in property creation order. -/
def jsEntries (m : List (String × ℚ)) : List (String × ℚ) :=
  (m.filter (fun e => isArrayIndexKey e.1)).foldr insertAscByKey [] ++
    m.filter (fun e => !isArrayIndexKey e.1)

/-- Embedding of the AnalyticsData record.  The best day and top department hold
the selected group entry, key and summed revenue; the displayed strings wrap
these in locale formatting (formatDate and formatCurrency), which carries no
selection logic and stays outside the embedding. -/
structure AnalyticsData where
  bestDay : Option (String × ℚ)
  topDepartment : Option (String × ℚ)
  cashOnlineRatio : String
  avgDailyRevenue : ℚ
  avgMonthlyRevenue : ℚ
  avgYearlyRevenue : ℚ
deriving DecidableEq

/-- String interpolation of a parseInt result: NaN prints as the NaN literal. -/
def numToKeyString (o : Option Int) : String :=
  match o with
  | some z => intToDecString z
  | none => "NaN"

/-- Model of padStart with target length two and a zero pad character. -/
def padStart2 (s : String) : String := if s.length < 2 then "0" ++ s else s

/-- Month grouping key of a record: year, a dash, and the two-padded month, both
read from the slash-split date string with parseInt. -/
def monthKey (r : IncomeRecord) : String :=
  let parts := jsSplitSlash r.date
  numToKeyString ((parts[2]?).bind jsParseInt) ++ "-" ++
    padStart2 (numToKeyString ((parts[0]?).bind jsParseInt))

/-- Year grouping key of a record. -/
def yearKey (r : IncomeRecord) : String :=
  numToKeyString (((jsSplitSlash r.date)[2]?).bind jsParseInt)

/-- Embedding of DataProcessingService.calculateAnalytics.  Group revenue by
date and by department in property creation order, enumerate the entries in the
Object.entries order (integer-index keys first, ascending, then creation
order), sort them descending by the summed value with the stable sort and take
the head; the ratio string guards on a strictly positive online total; the
averages divide the grand total by the number of distinct date, month and year
keys. -/
def calculateAnalytics (data : List IncomeRecord) : AnalyticsData :=
  if data.isEmpty then
    { bestDay := none, topDepartment := none, cashOnlineRatio := "--",
      avgDailyRevenue := 0, avgMonthlyRevenue := 0, avgYearlyRevenue := 0 }
  else
    let bestDay := (sortEntriesDesc (jsEntries (groupSums (fun r => r.date) data))).head?
    let topDept :=
      (sortEntriesDesc (jsEntries (groupSums (fun r => r.department) data))).head?
    let totalCash := data.foldl (fun s r => s + r.cash) 0
    let totalOnline := data.foldl (fun s r => s + r.online) 0
    let ratioFormatted :=
      if 0 < totalOnline then jsToFixed2 (totalCash / totalOnline) ++ ":1" else "--"
    let uniqueDates := (data.map (fun r => r.date)).dedup.length
    let avgDaily :=
      if 0 < uniqueDates then (totalCash + totalOnline) / (uniqueDates : ℚ) else 0
    let uniqueMonths := (data.map monthKey).dedup.length
    let avgMonthly :=
      if 0 < uniqueMonths then (totalCash + totalOnline) / (uniqueMonths : ℚ) else 0
    let uniqueYears := (data.map yearKey).dedup.length
    let avgYearly :=
      if 0 < uniqueYears then (totalCash + totalOnline) / (uniqueYears : ℚ) else 0
    { bestDay := bestDay, topDepartment := topDept, cashOnlineRatio := ratioFormatted,
      avgDailyRevenue := avgDaily, avgMonthlyRevenue := avgMonthly,
      avgYearlyRevenue := avgYearly }

/- ===================== date filtering ===================== -/

/-- Embedding of the DateFilter union type. -/
inductive DateFilter where
  | all
  | yesterday
  | week
  | month
  | year
  | specific
deriving DecidableEq

/-- Embedding of DataProcessingService.getDateRange, parameterized by the epoch
day number of the current local midnight (the source builds it from the current
clock).  The setDate arithmetic of the source shifts a date by whole days, which
on day numbers is plain addition; month and year boundaries re-enter the Date
constructor and are modelled through jsMakeDate. -/
def getDateRange (todayNum : Int) : DateFilter → Option (Int × Int)
  | .yesterday => some (todayNum - 1, todayNum - 1)
  | .week =>
    let dayOfWeek := jsGetDay todayNum
    let daysToMonday := if dayOfWeek = 0 then -6 else 1 - dayOfWeek
    let startOfWeek := todayNum + daysToMonday
    some (startOfWeek, startOfWeek + 6)
  | .month =>
    let c := civilFromDays todayNum
    some (jsMakeDate c.1 (c.2.1 - 1) 1, jsMakeDate c.1 c.2.1 0)
  | .year =>
    let c := civilFromDays todayNum
    some (jsMakeDate c.1 0 1, jsMakeDate c.1 11 31)
  | _ => none

/-- Comparison of two JS Date values with a less-or-equal operator: any
comparison against an invalid date (a NaN time value) is false. -/
def jsLeDate (a b : Option Int) : Bool :=
  match a, b with
  | some x, some y => decide (x ≤ y)
  | _, _ => false

/-- Embedding of DataProcessingService.filterDataByDate.  The branch order
follows the source: the all filter returns the input, a specific filter with
both range ends parses and compares dates inclusively, a specific filter with
only the single legacy date compares the raw date strings for equality, and the
remaining filters compare against the computed range after formatting it to a
string and reparsing it.  An absent or empty (hence falsy) date argument is
modelled as none. -/
def filterDataByDate (todayNum : Int) (data : List IncomeRecord) (filter : DateFilter)
    (specificDate startDate endDate : Option String) : List IncomeRecord :=
  match filter, specificDate, startDate, endDate with
  | .all, _, _, _ => data
  | .specific, _, some s, some e =>
    data.filter (fun r =>
      jsLeDate (parseDateString s) (parseDateString r.date) &&
      jsLeDate (parseDateString r.date) (parseDateString e))
  | .specific, some sd, _, _ => data.filter (fun r => r.date == sd)
  | f, _, _, _ =>
    match getDateRange todayNum f with
    | none => data
    | some (s, e) =>
      data.filter (fun r =>
        jsLeDate (parseDateString (formatDateForComparison s)) (parseDateString r.date) &&
        jsLeDate (parseDateString r.date) (parseDateString (formatDateForComparison e)))

/-- Monday of the current week as the spec formula writes it: today minus the
weekday index rotated so that Monday is zero. -/
def specWeekStart (todayNum : Int) : Int := todayNum - ((jsGetDay todayNum + 6) % 7)

/- ===================== composite department rollup ===================== -/

/-- Modelled from the spec: the static composite-department lookup table.  The
implementation file of the rollup (services/dataProcessingService.ts) is not
among the provided sources, only its call sites; the spec describes a fixed
table mapping each composite department to its named sub-sections, two per
composite department. -/
def subSections : List (String × List String) :=
  [("Gaushala", ["Gaushala Seva Office", "Gaushala Hundi"]),
   ("Kitchen", ["Kitchen Hundi", "Kitchen Seva Office"]),
   ("Hundi", ["Temple Hundi", "Yamuna Hundi"]),
   ("Other Donations", ["General", "PWS"])]

/-- Modelled from the spec: calculateMainDepartmentTotals, whose implementation
file is not among the provided sources.  Per the spec, a composite department
additionally filters records matching any of its registered sub-section names
and folds their sums into the same totals as calculateDepartmentTotals. -/
def calculateMainDepartmentTotals (data : List IncomeRecord) (departmentName : String) :
    DepartmentTotals :=
  let subs := (subSections.lookup departmentName).getD []
  let deptData := data.filter
    (fun r => r.department == departmentName || subs.contains r.department)
  let totalCash := deptData.foldl (fun s r => s + r.cash) 0
  let totalOnline := deptData.foldl (fun s r => s + r.online) 0
  let totalIncome := totalCash + totalOnline
  { cash := totalCash, online := totalOnline, total := totalIncome,
    hasData := decide (0 < deptData.length) && decide (0 < totalIncome) }

/- ===================== export service ===================== -/

/-- Embedding of ExportService.exportToCSV: a fixed header row, then one row per
record with the date raw, the department always wrapped in double quotes with no
internal escaping, and the two amounts and their sum rendered as JS numbers;
rows joined by commas, lines by newlines.  The empty input throws. -/
def exportToCSV (data : List IncomeRecord) : Except String String :=
  if data.isEmpty then .error "No data to export"
  else .ok (String.intercalate "\n"
    (String.intercalate ","
        ["Date", "Department", "Cash Income", "Online Income", "Total Income"] ::
      data.map (fun r => String.intercalate ","
        [r.date, "\"" ++ r.department ++ "\"", numToCell r.cash, numToCell r.online,
          numToCell (r.cash + r.online)])))

/-- Embedding of the field quoting of ExportService.exportGenericToCSV: a string
containing the comma delimiter or the double quote is wrapped in double quotes
with each internal double quote doubled; any other string passes through.  This
is also the escaping policy the spec attributes to the export surface. -/
def csvEscapeField (s : String) : String :=
  if s.toList.contains ',' || s.toList.contains '\"' then
    "\"" ++ String.mk (s.toList.foldr
      (fun c acc => if c = '\"' then '\"' :: '\"' :: acc else c :: acc) []) ++ "\""
  else s

/-- Embedding of ExportService.exportGenericToCSV applied to income records: the
header row lists the own keys of the first object, which for an income record
are its four field names in declaration order; string fields are escaped with
csvEscapeField, numbers joined raw; no total column exists on this path. -/
def exportGenericToCSV (data : List IncomeRecord) : Except String String :=
  if data.isEmpty then .error "No data to export"
  else .ok (String.intercalate "\n"
    ("date,department,cash,online" ::
      data.map (fun r => String.intercalate ","
        [csvEscapeField r.date, csvEscapeField r.department, numToCell r.cash,
          numToCell r.online])))

/- ===================== ingestion ===================== -/

deriving instance DecidableEq for Except

/-- ASCII lowercasing of a string, as a character list: the model of
toLowerCase, adequate because header names are ASCII. -/
def jsToLower (s : String) : List Char :=
  s.toList.map (fun c =>
    if 65 ≤ c.toNat && c.toNat ≤ 90 then Char.ofNat (c.toNat + 32) else c)

/-- Substring test after lowercasing the haystack: model of the chained
toLowerCase and includes calls of the header sniffing. -/
def jsIncludesLower (h sub : String) : Bool := decide (List.IsInfix sub.toList (jsToLower h))

/-- Index of the first header containing one of the lowercase needles after
lowercasing, as findIndex over the header row; none models the minus-one result
of findIndex. -/
def findHeaderIdx (headers : List String) (needles : List String) : Option Nat :=
  headers.findIdx? (fun h => needles.any (fun sub => jsIncludesLower h sub))

/-- Header synonyms for the date column. -/
def dateNeedles : List String := ["date", "day", "time"]

/-- Header synonyms for the department column. -/
def departmentNeedles : List String := ["department", "dept", "category", "location"]

/-- Header synonyms for the cash column. -/
def cashNeedles : List String := ["cash", "cash amount", "cash revenue"]

/-- Header synonyms for the online column. -/
def onlineNeedles : List String := ["online", "digital", "card", "online amount",
  "online revenue"]

/-- Build one income record from a row given the four column indices: a missing
cell reads as the empty string, and an amount cell goes through parseFloat with
a fallback of zero, which the or-with-zero of the source makes exact whether
parseFloat yields NaN or zero. -/
def rowToRecord (di dpi ci oi : Nat) (row : List String) : IncomeRecord :=
  { date := row.getD di "", department := row.getD dpi "",
    cash := (jsParseFloat (row.getD ci "")).getD 0,
    online := (jsParseFloat (row.getD oi "")).getD 0 }

/-- Embedding of GoogleSheetsServiceImpl.parseGoogleSheetsData on the value
matrix of the API response: fewer than two rows yield no records; otherwise the
four columns are resolved by the case-insensitive substring synonyms, with a
positional fallback on the first four columns that throws when the header row is
shorter than four; data rows are mapped to records and rows whose date or
department field is empty (falsy) are dropped. -/
def parseGoogleSheetsData (values : List (List String)) :
    Except String (List IncomeRecord) :=
  if values.length < 2 then .ok []
  else
    match values with
    | [] => .ok []
    | headers :: rows =>
      match findHeaderIdx headers dateNeedles, findHeaderIdx headers departmentNeedles,
          findHeaderIdx headers cashNeedles, findHeaderIdx headers onlineNeedles with
      | some di, some dpi, some ci, some oi =>
        .ok ((rows.map (rowToRecord di dpi ci oi)).filter
          (fun q => !q.date.isEmpty && !q.department.isEmpty))
      | _, _, _, _ =>
        if headers.length < 4 then
          .error "Spreadsheet must have at least 4 columns: Date, Department, Cash, Online"
        else
          .ok ((rows.map (rowToRecord 0 1 2 3)).filter
            (fun q => !q.date.isEmpty && !q.department.isEmpty))

/- ===================== theorems ===================== -/

theorem char_toNat_digit (d : Nat) (h : d ≤ 9) : (Char.ofNat (48 + d)).toNat = 48 + d := by
  have hv : (48 + d).isValidChar := by
    unfold Nat.isValidChar
    left; omega
  simp [Char.ofNat, hv]
  rfl

theorem isDigitChar_digit (d : Nat) (h : d ≤ 9) : isDigitChar (Char.ofNat (48 + d)) = true := by
  simp [isDigitChar, char_toNat_digit d h]
  omega

theorem natDigitsF_fuel (n : Nat) : ∀ f1 f2, n < f1 → n < f2 →
    natDigitsF f1 n = natDigitsF f2 n := by
  induction n using Nat.strong_induction_on with
  | _ n ih =>
    intro f1 f2 h1 h2
    match f1, f2 with
    | g1+1, g2+1 =>
      simp only [natDigitsF]
      split
      · rfl
      · rename_i hge
        rw [ih (n / 10) (Nat.div_lt_self (by omega) (by omega)) g1 g2 (by omega) (by omega)]

theorem natDigits_eq (n : Nat) :
    natDigits n = if n < 10 then [Char.ofNat (48 + n)]
      else natDigits (n / 10) ++ [Char.ofNat (48 + n % 10)] := by
  show natDigitsF (n + 1) n = _
  simp only [natDigitsF]
  split
  · rfl
  · rw [natDigitsF_fuel (n / 10) n (n / 10 + 1) (by omega) (by omega)]
    rfl

theorem natDigits_all_digit (n : Nat) : ∀ c ∈ natDigits n, isDigitChar c = true := by
  induction n using Nat.strong_induction_on with
  | _ n ih =>
    rw [natDigits_eq]
    split
    · intro c hc
      simp at hc
      subst hc
      exact isDigitChar_digit n (by omega)
    · intro c hc
      rw [List.mem_append] at hc
      rcases hc with hc | hc
      · exact ih (n / 10) (Nat.div_lt_self (by omega) (by omega)) c hc
      · simp at hc
        subst hc
        exact isDigitChar_digit (n % 10) (by omega)

theorem natDigits_ne_nil (n : Nat) : natDigits n ≠ [] := by
  rw [natDigits_eq]
  split <;> simp

theorem digitsVal_gen (cs : List Char) (a : Nat) :
    cs.foldl (fun a c => a * 10 + (c.toNat - 48)) a =
      a * 10 ^ cs.length + digitsVal cs := by
  induction cs generalizing a with
  | nil => simp [digitsVal]
  | cons c cs ih =>
    rw [List.foldl_cons, ih]
    have h2 : digitsVal (c :: cs) = (c.toNat - 48) * 10 ^ cs.length + digitsVal cs := by
      show cs.foldl _ (0 * 10 + (c.toNat - 48)) = _
      rw [ih]
      ring_nf
    rw [h2, List.length_cons]
    ring

theorem digitsVal_natDigits (n : Nat) : digitsVal (natDigits n) = n := by
  induction n using Nat.strong_induction_on with
  | _ n ih =>
    rw [natDigits_eq]
    split
    · simp [digitsVal, char_toNat_digit n (by omega)]
    · rename_i h
      rw [digitsVal, List.foldl_append]
      show digitsVal (natDigits (n / 10)) * 10 + ((Char.ofNat (48 + n % 10)).toNat - 48) = n
      rw [ih (n / 10) (Nat.div_lt_self (by omega) (by omega)),
        char_toNat_digit (n % 10) (by omega)]
      omega

theorem isDigitChar_not_space (c : Char) (h : isDigitChar c = true) : isSpaceChar c = false := by
  by_contra hns
  have hs : isSpaceChar c = true := by
    revert hns
    cases isSpaceChar c <;> simp
  simp only [isSpaceChar, Bool.or_eq_true, beq_iff_eq] at hs
  rcases hs with ((h1 | h1) | h1) | h1 <;> subst h1 <;> exact absurd h (by decide)

theorem isDigitChar_ne_minus (c : Char) (h : isDigitChar c = true) : c ≠ '-' := by
  intro hc
  subst hc
  exact absurd h (by decide)

theorem isDigitChar_ne_plus (c : Char) (h : isDigitChar c = true) : c ≠ '+' := by
  intro hc
  subst hc
  exact absurd h (by decide)

theorem parseLeadingNat_natDigits (n : Nat) : parseLeadingNat (natDigits n) = some n := by
  have hall := natDigits_all_digit n
  have htake : (natDigits n).takeWhile isDigitChar = natDigits n :=
    List.takeWhile_eq_self_iff.mpr hall
  unfold parseLeadingNat
  simp only [htake]
  rw [if_neg (by simp [List.isEmpty_iff, natDigits_ne_nil n])]
  rw [digitsVal_natDigits]

theorem toList_mk (l : List Char) : (String.mk l).toList = l := rfl

theorem jsParseInt_intToDecString (z : Int) : jsParseInt (intToDecString z) = some z := by
  obtain ⟨c, cs, hcs⟩ : ∃ c cs, natDigits z.natAbs = c :: cs := by
    rcases h : natDigits z.natAbs with _ | ⟨c, cs⟩
    · exact absurd h (natDigits_ne_nil _)
    · exact ⟨c, cs, rfl⟩
  have hcdig : isDigitChar c = true := by
    have := natDigits_all_digit z.natAbs c
    rw [hcs] at this
    exact this (by simp)
  by_cases hz : z < 0
  · have h1 : (intToDecString z).toList = '-' :: natDigits z.natAbs := by
      rw [intToDecString, if_pos hz, toList_mk]
    unfold jsParseInt
    rw [h1, List.dropWhile_cons, if_neg (by decide)]
    simp only [jsParseIntCore, if_pos rfl, parseLeadingNat_natDigits]
    rw [Int.natCast_natAbs, abs_of_neg hz, neg_neg]
    simp
  · have h1 : (intToDecString z).toList = natDigits z.natAbs := by
      rw [intToDecString, if_neg hz, toList_mk]
    unfold jsParseInt
    rw [h1, hcs, List.dropWhile_cons,
      if_neg (by rw [isDigitChar_not_space c hcdig]; simp)]
    simp only [jsParseIntCore, if_neg (isDigitChar_ne_minus c hcdig),
      if_neg (isDigitChar_ne_plus c hcdig)]
    rw [← hcs, parseLeadingNat_natDigits]
    show some ((z.natAbs : Nat) : Int) = some z
    rw [Int.natCast_natAbs, abs_of_nonneg (le_of_not_lt hz)]

theorem splitSlashAux_no_slash (xs : List Char) (acc : List Char) (h : '/' ∉ xs) :
    splitSlashAux xs acc = [acc.reverse ++ xs] := by
  induction xs generalizing acc with
  | nil => simp [splitSlashAux]
  | cons c cs ih =>
    have hc : c ≠ '/' := by
      intro hc
      exact h (hc ▸ List.mem_cons_self c cs)
    simp only [splitSlashAux, if_neg hc]
    rw [ih (c :: acc) (fun hm => h (List.mem_cons_of_mem c hm))]
    simp

theorem splitSlashAux_append (xs rest : List Char) (acc : List Char) (h : '/' ∉ xs) :
    splitSlashAux (xs ++ '/' :: rest) acc =
      (acc.reverse ++ xs) :: splitSlashAux rest [] := by
  induction xs generalizing acc with
  | nil => simp [splitSlashAux]
  | cons c cs ih =>
    have hc : c ≠ '/' := by
      intro hc
      exact h (hc ▸ List.mem_cons_self c cs)
    simp only [List.cons_append, splitSlashAux, if_neg hc, List.append_eq]
    rw [ih (c :: acc) (fun hm => h (List.mem_cons_of_mem c hm))]
    simp

theorem hstep_mono {a b : Nat} (h : a ≤ b) : hstep a ≤ hstep b := by
  induction b with
  | zero => simp_all
  | succ n ih =>
    rcases Nat.lt_or_ge a (n+1) with h' | h'
    · exact le_trans (ih (by omega)) (by unfold hstep; omega)
    · have : a = n + 1 := by omega
      subst this
      exact le_refl _

theorem yoeOfDoe_mono {a b : Nat} (h : a ≤ b) : yoeOfDoe a ≤ yoeOfDoe b :=
  Nat.div_le_div_right (hstep_mono h)

theorem yoeOfDoe_boundary :
    ∀ k, k < 400 → yoeOfDoe (yearStartN k) = k ∧ yoeOfDoe (yearStartN (k+1) - 1) = k := by
  decide

theorem yoeOfDoe_last : yoeOfDoe 146096 = 399 := by decide

theorem yoeOfDoe_spec (doe : Nat) (h : doe ≤ 146096) :
    365 * yoeOfDoe doe + yoeOfDoe doe / 4 - yoeOfDoe doe / 100 ≤ doe ∧
    doe - (365 * yoeOfDoe doe + yoeOfDoe doe / 4 - yoeOfDoe doe / 100) ≤ 365 ∧
    yoeOfDoe doe ≤ 399 := by
  have h399 : yoeOfDoe doe ≤ 399 := yoeOfDoe_last ▸ yoeOfDoe_mono h
  set k := yoeOfDoe doe with hk
  refine ⟨?_, ?_, h399⟩
  · by_contra hlt
    push_neg at hlt
    have hk1 : 1 ≤ k := by omega
    have hb := (yoeOfDoe_boundary (k - 1) (by omega)).2
    have hadd : k - 1 + 1 = k := by omega
    rw [hadd] at hb
    unfold yearStartN at hb
    have hle : doe ≤ 365 * k + k / 4 - k / 100 - 1 := by omega
    have hmono := yoeOfDoe_mono hle
    rw [hb] at hmono
    omega
  · by_contra hgt
    push_neg at hgt
    rcases Nat.lt_or_ge k 399 with h398 | h399p
    · have hb := (yoeOfDoe_boundary (k+1) (by omega)).1
      unfold yearStartN at hb
      have hle : 365 * (k+1) + (k+1) / 4 - (k+1) / 100 ≤ doe := by omega
      have hmono := yoeOfDoe_mono hle
      rw [hb] at hmono
      omega
    · have hks : k = 399 := by omega
      rw [hks] at hgt
      norm_num at hgt
      omega

theorem civil_core (era : Int) (doe k doy mp mNat dNat : Nat)
    (hk399 : k ≤ 399)
    (hys : 365 * k + k / 4 - k / 100 ≤ doe)
    (hdoy : doy = doe - (365 * k + k / 4 - k / 100))
    (hdoyle : doy ≤ 365)
    (hmp : mp = (5 * doy + 2) / 153)
    (hm : mNat = if mp < 10 then mp + 3 else mp - 9)
    (hd : dNat = doy - (153 * mp + 2) / 5 + 1) :
    daysFromCivil (era * 400 + k + (if mNat ≤ 2 then 1 else 0)) mNat dNat
      = era * 146097 + doe - 719468 := by
  have hmple : mp ≤ 11 := by omega
  have hqle : (153 * mp + 2) / 5 ≤ doy := by omega
  have hf : (era * 400 + (k : Int)) / 400 = era := by omega
  have hdiv5 : (((153 * mp + 2) / 5 : Nat) : Int) = (153 * (mp : Int) + 2) / 5 := by
    rw [Int.natCast_div]
    push_cast
    ring_nf
  have hdiv4 : ((k / 4 : Nat) : Int) = (k : Int) / 4 := by
    rw [Int.natCast_div]
    norm_num
  have hdiv100 : ((k / 100 : Nat) : Int) = (k : Int) / 100 := by
    rw [Int.natCast_div]
    norm_num
  simp only [daysFromCivil]
  rcases Nat.lt_or_ge mp 10 with hsplit | hsplit
  · rw [if_pos hsplit] at hm
    have hcond : ¬ ((mNat : Int) ≤ 2) := by
      rw [hm]
      push_cast
      omega
    have hcondN : ¬ (mNat ≤ 2) := by omega
    rw [if_neg hcondN, if_neg hcond, if_neg hcond, hm, hd]
    push_cast
    simp only [add_sub_cancel_right, sub_add_cancel, add_zero, sub_zero]
    rw [hf]
    have hyoe : era * 400 + (k : Int) - era * 400 = (k : Int) := by ring
    rw [hyoe]
    omega
  · rw [if_neg (by omega : ¬ mp < 10)] at hm
    have hmcast : (mNat : Int) = (mp : Int) - 9 := by
      rw [hm]
      push_cast [Nat.cast_sub (by omega : 9 ≤ mp)]
      ring
    have hcond : ((mNat : Int) ≤ 2) := by
      rw [hmcast]
      omega
    have hcondN : (mNat ≤ 2) := by omega
    rw [if_pos hcondN, if_pos hcond, if_pos hcond, hmcast, hd]
    push_cast
    simp only [add_sub_cancel_right, sub_add_cancel, add_zero, sub_zero]
    rw [hf]
    have hyoe : era * 400 + (k : Int) - era * 400 = (k : Int) := by ring
    rw [hyoe]
    omega

theorem daysFromCivil_civilFromDays (z : Int) :
    daysFromCivil (civilFromDays z).1 (civilFromDays z).2.1 (civilFromDays z).2.2 = z := by
  have h0 : (0:Int) ≤ (z + 719468) % 146097 := Int.emod_nonneg _ (by norm_num)
  have h1 : (z + 719468) % 146097 < 146097 := Int.emod_lt_of_pos _ (by norm_num)
  have hdoele : ((z + 719468) % 146097).toNat ≤ 146096 := by omega
  obtain ⟨hys, hdoyle, h399⟩ := yoeOfDoe_spec _ hdoele
  simp only [civilFromDays]
  rw [civil_core ((z + 719468) / 146097) (((z + 719468) % 146097).toNat)
    (yoeOfDoe (((z + 719468) % 146097).toNat)) _ _ _ _ h399 hys rfl hdoyle rfl rfl rfl]
  omega

theorem civilFromDays_m_d_bounds (z : Int) :
    1 ≤ (civilFromDays z).2.1 ∧ (civilFromDays z).2.1 ≤ 12 ∧ 1 ≤ (civilFromDays z).2.2 := by
  have h0 : (0:Int) ≤ (z + 719468) % 146097 := Int.emod_nonneg _ (by norm_num)
  have h1 : (z + 719468) % 146097 < 146097 := Int.emod_lt_of_pos _ (by norm_num)
  have hdoele : ((z + 719468) % 146097).toNat ≤ 146096 := by omega
  obtain ⟨hys, hdoyle, h399⟩ := yoeOfDoe_spec _ hdoele
  simp only [civilFromDays]
  set doe := ((z + 719468) % 146097).toNat
  set k := yoeOfDoe doe
  set doy := doe - (365 * k + k / 4 - k / 100)
  have hmple : (5 * doy + 2) / 153 ≤ 11 := by omega
  refine ⟨?_, ?_, by push_cast; omega⟩ <;> split <;> push_cast <;> omega

theorem mk_toList (s : String) : String.mk s.toList = s := rfl

theorem slash_not_mem_intToDecString (z : Int) : '/' ∉ (intToDecString z).toList := by
  intro hm
  have hdig : ∀ c ∈ (intToDecString z).toList, c = '-' ∨ isDigitChar c = true := by
    intro c hc
    unfold intToDecString at hc
    split at hc <;> rw [toList_mk] at hc
    · rcases List.mem_cons.mp hc with h | h
      · exact Or.inl h
      · exact Or.inr (natDigits_all_digit _ c h)
    · exact Or.inr (natDigits_all_digit _ c hc)
  rcases hdig '/' hm with h | h
  · exact absurd h (by decide)
  · exact absurd h (by decide)

theorem daysFromCivil_day (y m d : Int) :
    daysFromCivil y m d = daysFromCivil y m 1 + (d - 1) := by
  simp only [daysFromCivil]
  ring

theorem jsSplitSlash_three (a b c : String)
    (ha : '/' ∉ a.toList) (hb : '/' ∉ b.toList) (hc : '/' ∉ c.toList) :
    jsSplitSlash (a ++ "/" ++ b ++ "/" ++ c) = [a, b, c] := by
  unfold jsSplitSlash
  have h1 : (a ++ "/" ++ b ++ "/" ++ c).toList =
      a.toList ++ '/' :: (b.toList ++ '/' :: c.toList) := by
    show (a ++ "/" ++ b ++ "/" ++ c).data = _
    simp only [String.data_append]
    show a.data ++ ['/'] ++ b.data ++ ['/'] ++ c.data = _
    simp [List.append_assoc]
  rw [h1, splitSlashAux_append _ _ [] ha, splitSlashAux_append _ _ [] hb,
    splitSlashAux_no_slash _ [] hc]
  simp only [List.reverse_nil, List.nil_append, List.map_cons, List.map_nil, mk_toList]

theorem parseDateString_format (t : Int)
    (hq : ¬ (0 ≤ (civilFromDays t).1 ∧ (civilFromDays t).1 ≤ 99)) :
    parseDateString (formatDateForComparison t) = some t := by
  obtain ⟨hm1, hm12, hd1⟩ := civilFromDays_m_d_bounds t
  unfold parseDateString formatDateForComparison
  rw [jsSplitSlash_three _ _ _ (slash_not_mem_intToDecString _)
    (slash_not_mem_intToDecString _) (slash_not_mem_intToDecString _)]
  simp only [List.getElem?_cons_zero, List.getElem?_cons_succ, Option.some_bind,
    jsParseInt_intToDecString]
  show some (jsMakeDate (civilFromDays t).1 ((civilFromDays t).2.1 - 1) (civilFromDays t).2.2)
      = some t
  simp only [jsMakeDate]
  rw [if_neg hq]
  have hdv : ((civilFromDays t).2.1 - 1) / 12 = 0 := by omega
  have hmd : ((civilFromDays t).2.1 - 1) % 12 = (civilFromDays t).2.1 - 1 := by omega
  rw [hdv, hmd, add_zero]
  have hmm : (civilFromDays t).2.1 - 1 + 1 = (civilFromDays t).2.1 := by ring
  rw [hmm, ← daysFromCivil_day, daysFromCivil_civilFromDays]

/- ===================== helper lemmas ===================== -/

theorem foldl_add_eq_sum (f : IncomeRecord → ℚ) :
    ∀ (l : List IncomeRecord) (a : ℚ), l.foldl (fun s r => s + f r) a = a + (l.map f).sum := by
  intro l
  induction l with
  | nil => simp
  | cons r l ih =>
    intro a
    simp only [List.foldl_cons, List.map_cons, List.sum_cons, ih]
    ring

theorem filter_dep_exists (R : List IncomeRecord) (d : String) :
    (0 < (R.filter (fun r => r.department == d)).length) ↔ (∃ r ∈ R, r.department = d) := by
  rw [List.length_pos]
  constructor
  · intro h
    rcases List.exists_mem_of_ne_nil _ h with ⟨r, hr⟩
    have := List.of_mem_filter hr
    exact ⟨r, List.mem_of_mem_filter hr, by simpa using this⟩
  · rintro ⟨r, hrR, hrd⟩
    intro hnil
    have : r ∈ R.filter (fun r => r.department == d) :=
      List.mem_filter.mpr ⟨hrR, by simpa using hrd⟩
    rw [hnil] at this
    exact absurd this (List.not_mem_nil r)

/-- C1: for every record list and department name, calculateDepartmentTotals
returns the cash sum and online sum over exactly the records whose department
string equals the name, a total equal to cash plus online, and hasData true
precisely when a matching record exists and the total is positive; an unknown
department yields all-zero totals with hasData false and no error. -/
theorem C1_calculateDepartmentTotals_spec (R : List IncomeRecord) (d : String) :
    (calculateDepartmentTotals R d).cash
        = ((R.filter (fun r => r.department == d)).map (fun r => r.cash)).sum ∧
    (calculateDepartmentTotals R d).online
        = ((R.filter (fun r => r.department == d)).map (fun r => r.online)).sum ∧
    (calculateDepartmentTotals R d).total
        = (calculateDepartmentTotals R d).cash + (calculateDepartmentTotals R d).online ∧
    ((calculateDepartmentTotals R d).hasData = true ↔
      ((∃ r ∈ R, r.department = d) ∧ 0 < (calculateDepartmentTotals R d).total)) ∧
    ((∀ r ∈ R, r.department ≠ d) →
      calculateDepartmentTotals R d = ⟨0, 0, 0, false⟩) := by
  refine ⟨?_, ?_, rfl, ?_, ?_⟩
  · simp only [calculateDepartmentTotals]
    rw [foldl_add_eq_sum]
    ring
  · simp only [calculateDepartmentTotals]
    rw [foldl_add_eq_sum]
    ring
  · simp only [calculateDepartmentTotals, Bool.and_eq_true, decide_eq_true_eq]
    rw [filter_dep_exists]
  · intro hall
    have hnil : R.filter (fun r => r.department == d) = [] := by
      rw [List.filter_eq_nil_iff]
      intro r hr
      simpa using hall r hr
    simp only [calculateDepartmentTotals, hnil]
    with_unfolding_all rfl

/-- C1 witness: the zero-data edge case of the spec, one matching record with
zero amounts, plus an unknown department. -/
theorem C1_witness :
    ((calculateDepartmentTotals [⟨"1/1/2025", "GiftShop", 0, 0⟩] "GiftShop").hasData = true ↔
      ((∃ r ∈ [(⟨"1/1/2025", "GiftShop", 0, 0⟩ : IncomeRecord)], r.department = "GiftShop") ∧
        0 < (calculateDepartmentTotals [⟨"1/1/2025", "GiftShop", 0, 0⟩] "GiftShop").total)) ∧
    calculateDepartmentTotals [⟨"1/1/2025", "GiftShop", 0, 0⟩] "Boat" = ⟨0, 0, 0, false⟩ := by
  constructor
  · exact (C1_calculateDepartmentTotals_spec [⟨"1/1/2025", "GiftShop", 0, 0⟩] "GiftShop").2.2.2.1
  · exact (C1_calculateDepartmentTotals_spec [⟨"1/1/2025", "GiftShop", 0, 0⟩] "Boat").2.2.2.2
      (by intro r hr; simp at hr; rw [hr]; with_unfolding_all decide)

theorem filterOr_sum (g : IncomeRecord → ℚ) (D a b : String)
    (hDa : D ≠ a) (hDb : D ≠ b) (hab : a ≠ b) :
    ∀ R : List IncomeRecord,
      ((R.filter (fun r => r.department == D || [a, b].contains r.department)).map g).sum =
        ((R.filter (fun r => r.department == D)).map g).sum +
        ((R.filter (fun r => r.department == a)).map g).sum +
        ((R.filter (fun r => r.department == b)).map g).sum := by
  intro R
  induction R with
  | nil => simp
  | cons r R ih =>
    simp only [List.filter_cons]
    by_cases h1 : r.department = D
    · rw [if_pos (by simp [h1]), if_pos (by simp [h1]),
        if_neg (by simp [h1, hDa]), if_neg (by simp [h1, hDb])]
      simp only [List.map_cons, List.sum_cons, ih]
      ring
    · by_cases h2 : r.department = a
      · rw [if_pos (by simp [h2, List.contains]),
          if_neg (by simp [h1]), if_pos (by simp [h2]), if_neg (by simp [h2, hab])]
        simp only [List.map_cons, List.sum_cons, ih]
        ring
      · by_cases h3 : r.department = b
        · rw [if_pos (by simp [h3, List.contains]),
            if_neg (by simp [h1]), if_neg (by simp [h2]), if_pos (by simp [h3])]
          simp only [List.map_cons, List.sum_cons, ih]
          ring
        · rw [if_neg (by simp [h1, List.contains, List.elem_cons, h2, h3]),
            if_neg (by simp [h1]), if_neg (by simp [h2]), if_neg (by simp [h3])]
          exact ih

theorem mainTotals_split (R : List IncomeRecord) (D a b : String)
    (hsub : (subSections.lookup D).getD [] = [a, b])
    (hDa : D ≠ a) (hDb : D ≠ b) (hab : a ≠ b) :
    (calculateMainDepartmentTotals R D).total =
      (calculateDepartmentTotals R D).total + (calculateDepartmentTotals R a).total +
        (calculateDepartmentTotals R b).total := by
  simp only [calculateMainDepartmentTotals, calculateDepartmentTotals, hsub]
  rw [foldl_add_eq_sum, foldl_add_eq_sum, foldl_add_eq_sum, foldl_add_eq_sum,
    foldl_add_eq_sum, foldl_add_eq_sum, foldl_add_eq_sum, foldl_add_eq_sum]
  rw [filterOr_sum _ _ _ _ hDa hDb hab, filterOr_sum _ _ _ _ hDa hDb hab]
  ring

/-- C2: for every record list and composite department with its two registered
sub-sections, the rollup total of calculateMainDepartmentTotals equals the sum
of the flat totals of the department and of each sub-section; the required
disjointness holds because the table names are pairwise distinct, so no single
department string can match two of them. -/
theorem C2_mainDepartmentTotals_rollup (R : List IncomeRecord) (D s1 s2 : String)
    (h : (D, [s1, s2]) ∈ subSections) :
    (calculateMainDepartmentTotals R D).total =
      (calculateDepartmentTotals R D).total + (calculateDepartmentTotals R s1).total +
        (calculateDepartmentTotals R s2).total := by
  fin_cases h <;>
    exact mainTotals_split R _ _ _ (by decide) (by decide) (by decide) (by decide)

/-- C2 witness: the Kitchen composite department on a concrete record list with
rows in the department itself, in both sub-sections, and elsewhere. -/
theorem C2_witness :
    (calculateMainDepartmentTotals
        [⟨"1/1/2025", "Kitchen", 10, 5⟩, ⟨"1/1/2025", "Kitchen Hundi", 1, 2⟩,
         ⟨"1/2/2025", "Kitchen Seva Office", 3, 4⟩, ⟨"1/2/2025", "Boat", 100, 100⟩]
        "Kitchen").total =
      (calculateDepartmentTotals
        [⟨"1/1/2025", "Kitchen", 10, 5⟩, ⟨"1/1/2025", "Kitchen Hundi", 1, 2⟩,
         ⟨"1/2/2025", "Kitchen Seva Office", 3, 4⟩, ⟨"1/2/2025", "Boat", 100, 100⟩]
        "Kitchen").total +
      (calculateDepartmentTotals
        [⟨"1/1/2025", "Kitchen", 10, 5⟩, ⟨"1/1/2025", "Kitchen Hundi", 1, 2⟩,
         ⟨"1/2/2025", "Kitchen Seva Office", 3, 4⟩, ⟨"1/2/2025", "Boat", 100, 100⟩]
        "Kitchen Hundi").total +
      (calculateDepartmentTotals
        [⟨"1/1/2025", "Kitchen", 10, 5⟩, ⟨"1/1/2025", "Kitchen Hundi", 1, 2⟩,
         ⟨"1/2/2025", "Kitchen Seva Office", 3, 4⟩, ⟨"1/2/2025", "Boat", 100, 100⟩]
        "Kitchen Seva Office").total :=
  C2_mainDepartmentTotals_rollup _ "Kitchen" "Kitchen Hundi" "Kitchen Seva Office"
    (by decide)

theorem head_insertDesc (x : String × ℚ) (l : List (String × ℚ)) :
    (insertDesc x l).head? = some (match l.head? with
      | none => x
      | some y => if y.2 ≤ x.2 then x else y) := by
  cases l with
  | nil => rfl
  | cons y ys =>
    simp only [insertDesc, List.head?_cons]
    split <;> rfl

theorem head_sortEntriesDesc (l : List (String × ℚ)) :
    (sortEntriesDesc l).head? = firstMaxEntry l := by
  induction l with
  | nil => rfl
  | cons x xs ih =>
    show (insertDesc x (sortEntriesDesc xs)).head? = _
    rw [head_insertDesc]
    cases hh : (sortEntriesDesc xs).head? with
    | none =>
      rw [ih] at hh
      simp only [firstMaxEntry, hh]
    | some m =>
      rw [ih] at hh
      simp only [firstMaxEntry, hh]
      rcases le_or_lt m.2 x.2 with hle | hlt
      · rw [if_pos hle, if_neg (by exact not_lt.mpr hle)]
      · rw [if_neg (by exact not_le.mpr hlt), if_pos hlt]

theorem filter_index_nil (m : List (String × ℚ)) :
    (∀ e ∈ m, isArrayIndexKey e.1 = false) →
      m.filter (fun e => isArrayIndexKey e.1) = [] := by
  induction m with
  | nil => intro h; rfl
  | cons x xs ih =>
    intro h
    rw [List.filter_cons, if_neg (by simp [h x (List.mem_cons_self x xs)])]
    exact ih (fun e he => h e (List.mem_cons_of_mem x he))

theorem filter_nonindex_self (m : List (String × ℚ)) :
    (∀ e ∈ m, isArrayIndexKey e.1 = false) →
      m.filter (fun e => !isArrayIndexKey e.1) = m := by
  induction m with
  | nil => intro h; rfl
  | cons x xs ih =>
    intro h
    rw [List.filter_cons, if_pos (by simp [h x (List.mem_cons_self x xs)])]
    rw [ih (fun e he => h e (List.mem_cons_of_mem x he))]

theorem jsEntries_of_no_index (m : List (String × ℚ))
    (h : ∀ e ∈ m, isArrayIndexKey e.1 = false) : jsEntries m = m := by
  unfold jsEntries
  rw [filter_index_nil m h, filter_nonindex_self m h]
  rfl

theorem addEntry_keys (m : List (String × ℚ)) (k : String) (v : ℚ) :
    ∀ e ∈ addEntry m k v, e.1 = k ∨ ∃ e2 ∈ m, e.1 = e2.1 := by
  induction m with
  | nil =>
    intro e he
    simp only [addEntry, List.mem_singleton] at he
    subst he
    exact Or.inl rfl
  | cons p rest ih =>
    obtain ⟨k1, v1⟩ := p
    intro e he
    simp only [addEntry] at he
    split at he
    · rcases List.mem_cons.mp he with h1 | h1
      · subst h1
        exact Or.inr ⟨(k1, v1), List.mem_cons_self _ _, rfl⟩
      · exact Or.inr ⟨e, List.mem_cons_of_mem _ h1, rfl⟩
    · rcases List.mem_cons.mp he with h1 | h1
      · subst h1
        exact Or.inr ⟨(k1, v1), List.mem_cons_self _ _, rfl⟩
      · rcases ih e h1 with h2 | ⟨e2, he2, hk⟩
        · exact Or.inl h2
        · exact Or.inr ⟨e2, List.mem_cons_of_mem _ he2, hk⟩

theorem foldl_addEntry_keys (key : IncomeRecord → String) (R : List IncomeRecord) :
    ∀ m : List (String × ℚ),
      ∀ e ∈ R.foldl (fun m r => addEntry m (key r) (r.cash + r.online)) m,
        (∃ e2 ∈ m, e.1 = e2.1) ∨ ∃ r ∈ R, e.1 = key r := by
  induction R with
  | nil =>
    intro m e he
    exact Or.inl ⟨e, he, rfl⟩
  | cons r rest ih =>
    intro m e he
    simp only [List.foldl_cons] at he
    rcases ih _ e he with ⟨e2, he2, hk⟩ | ⟨r2, hr2, hk⟩
    · rcases addEntry_keys m (key r) (r.cash + r.online) e2 he2 with h1 | ⟨e3, he3, hk3⟩
      · exact Or.inr ⟨r, List.mem_cons_self _ _, hk.trans h1⟩
      · exact Or.inl ⟨e3, he3, hk.trans hk3⟩
    · exact Or.inr ⟨r2, List.mem_cons_of_mem _ hr2, hk⟩

theorem groupSums_keys (key : IncomeRecord → String) (R : List IncomeRecord) :
    ∀ e ∈ groupSums key R, ∃ r ∈ R, e.1 = key r := by
  intro e he
  rcases foldl_addEntry_keys key R [] e he with ⟨e2, he2, _⟩ | h
  · exact absurd he2 (List.not_mem_nil e2)
  · exact h

/-- C3 counterexample: two departments named by integer-index strings tie at
revenue five; the department whose first record occurs earliest in the list is
the string nine, so the claimed first-occurrence tie-break predicts nine, but
Object.entries enumerates integer-index keys in ascending numeric order, so the
program reports the string two. -/
theorem C3_counterexample :
    (calculateAnalytics
        [⟨"1/1/2025", "9", 5, 0⟩, ⟨"1/2/2025", "2", 0, 5⟩]).topDepartment
      = some ("2", 5) ∧
    firstMaxEntry (groupSums (fun r => r.department)
        [⟨"1/1/2025", "9", 5, 0⟩, ⟨"1/2/2025", "2", 0, 5⟩])
      = some ("9", 5) := by
  constructor
  · with_unfolding_all decide
  · with_unfolding_all decide

/-- C3 (amended): on a non-empty record list none of whose date strings and
none of whose department strings is an integer-index key, calculateAnalytics
selects as best day the date group with the maximum summed revenue and as top
department the department group with the maximum summed revenue, where the
grouping is in order of first occurrence and a tie is won by the group
appearing first in that order.  Without the key-shape hypotheses this fails:
Object.entries enumerates integer-index keys first in ascending numeric order,
so a tied group with such a key can displace the first-occurring group. -/
theorem C3_analytics_selection (R : List IncomeRecord) (h : R ≠ [])
    (hdate : ∀ r ∈ R, isArrayIndexKey r.date = false)
    (hdep : ∀ r ∈ R, isArrayIndexKey r.department = false) :
    (calculateAnalytics R).bestDay = firstMaxEntry (groupSums (fun r => r.date) R) ∧
    (calculateAnalytics R).topDepartment
      = firstMaxEntry (groupSums (fun r => r.department) R) := by
  have hne : R.isEmpty = false := by
    cases R with
    | nil => exact absurd rfl h
    | cons a l => rfl
  have hd1 : jsEntries (groupSums (fun r => r.date) R) = groupSums (fun r => r.date) R := by
    refine jsEntries_of_no_index _ (fun e he => ?_)
    rcases groupSums_keys _ _ e he with ⟨r, hr, hk⟩
    rw [hk]
    exact hdate r hr
  have hd2 : jsEntries (groupSums (fun r => r.department) R)
      = groupSums (fun r => r.department) R := by
    refine jsEntries_of_no_index _ (fun e he => ?_)
    rcases groupSums_keys _ _ e he with ⟨r, hr, hk⟩
    rw [hk]
    exact hdep r hr
  constructor
  · unfold calculateAnalytics
    rw [hne]
    simp only [Bool.false_eq_true, if_false]
    rw [hd1]
    exact head_sortEntriesDesc _
  · unfold calculateAnalytics
    rw [hne]
    simp only [Bool.false_eq_true, if_false]
    rw [hd2]
    exact head_sortEntriesDesc _

/-- C3 witness: two dates tie at revenue five; no date or department string is
an integer-index key, the date that appears first in the list is reported, and
the department groups accumulate across rows. -/
theorem C3_witness :
    (calculateAnalytics
        [⟨"1/2/2025", "Kitchen", 5, 0⟩, ⟨"1/3/2025", "Boat", 3, 2⟩,
         ⟨"1/3/2025", "Kitchen", 0, 0⟩]).bestDay = some ("1/2/2025", 5) ∧
    (calculateAnalytics
        [⟨"1/2/2025", "Kitchen", 5, 0⟩, ⟨"1/3/2025", "Boat", 3, 2⟩,
         ⟨"1/3/2025", "Kitchen", 0, 0⟩]).topDepartment = some ("Kitchen", 5) := by
  have hsel := C3_analytics_selection
    [⟨"1/2/2025", "Kitchen", 5, 0⟩, ⟨"1/3/2025", "Boat", 3, 2⟩,
     ⟨"1/3/2025", "Kitchen", 0, 0⟩] (by intro hc; cases hc)
    (by decide) (by decide)
  refine ⟨hsel.1.trans ?_, hsel.2.trans ?_⟩
  · with_unfolding_all decide
  · with_unfolding_all decide

/-- C5: calculateKPIs returns a total revenue equal to total cash plus total
online, each summed over all records regardless of department; with the
non-negative amounts of the data model, a zero total revenue gives exactly zero
percentages, a non-zero one gives the rounded shares; the active department
count is the number of distinct department strings in the list, not filtered by
hasData, and the total department count is the size of the static catalog,
independent of the list. -/
theorem C5_calculateKPIs_spec (R : List IncomeRecord)
    (hnn : ∀ r ∈ R, 0 ≤ r.cash ∧ 0 ≤ r.online) :
    (calculateKPIs R).totalRevenue = (calculateKPIs R).totalCash + (calculateKPIs R).totalOnline ∧
    (calculateKPIs R).totalCash = (R.map (fun r => r.cash)).sum ∧
    (calculateKPIs R).totalOnline = (R.map (fun r => r.online)).sum ∧
    ((calculateKPIs R).totalRevenue = 0 →
      (calculateKPIs R).cashPercentage = 0 ∧ (calculateKPIs R).onlinePercentage = 0) ∧
    ((calculateKPIs R).totalRevenue ≠ 0 →
      (calculateKPIs R).cashPercentage =
        jsToFixed1 ((calculateKPIs R).totalCash / (calculateKPIs R).totalRevenue * 100) ∧
      (calculateKPIs R).onlinePercentage =
        jsToFixed1 ((calculateKPIs R).totalOnline / (calculateKPIs R).totalRevenue * 100)) ∧
    (calculateKPIs R).activeDepartments = (R.map (fun r => r.department)).toFinset.card ∧
    (calculateKPIs R).totalDepartments = ALL_DEPARTMENTS.length := by
  have hc : R.foldl (fun s r => s + r.cash) 0 = (R.map (fun r => r.cash)).sum := by
    rw [foldl_add_eq_sum]
    ring
  have ho : R.foldl (fun s r => s + r.online) 0 = (R.map (fun r => r.online)).sum := by
    rw [foldl_add_eq_sum]
    ring
  refine ⟨rfl, hc, ho, ?_, ?_, ?_, rfl⟩
  · intro h0
    have hrev : ¬ (0 < R.foldl (fun s r => s + r.cash) 0 + R.foldl (fun s r => s + r.online) 0) := by
      rw [show R.foldl (fun s r => s + r.cash) 0 + R.foldl (fun s r => s + r.online) 0
          = (calculateKPIs R).totalRevenue from rfl, h0]
      exact lt_irrefl 0
    constructor
    · show (if 0 < R.foldl (fun s r => s + r.cash) 0 + R.foldl (fun s r => s + r.online) 0
        then _ else _) = 0
      rw [if_neg hrev]
    · show (if 0 < R.foldl (fun s r => s + r.cash) 0 + R.foldl (fun s r => s + r.online) 0
        then _ else _) = 0
      rw [if_neg hrev]
  · intro h0
    have hcn : 0 ≤ (R.map (fun r => r.cash)).sum := by
      apply List.sum_nonneg
      intro x hx
      rcases List.mem_map.mp hx with ⟨r, hr, hrx⟩
      rw [← hrx]
      exact (hnn r hr).1
    have hon : 0 ≤ (R.map (fun r => r.online)).sum := by
      apply List.sum_nonneg
      intro x hx
      rcases List.mem_map.mp hx with ⟨r, hr, hrx⟩
      rw [← hrx]
      exact (hnn r hr).2
    have hrev : 0 < R.foldl (fun s r => s + r.cash) 0 + R.foldl (fun s r => s + r.online) 0 := by
      rw [hc, ho]
      rcases lt_or_eq_of_le (add_nonneg hcn hon) with hlt | heq
      · exact hlt
      · exfalso
        apply h0
        show R.foldl (fun s r => s + r.cash) 0 + R.foldl (fun s r => s + r.online) 0 = 0
        rw [hc, ho, ← heq]
    constructor
    · show (if 0 < R.foldl (fun s r => s + r.cash) 0 + R.foldl (fun s r => s + r.online) 0
        then _ else _) = _
      rw [if_pos hrev]
      rfl
    · show (if 0 < R.foldl (fun s r => s + r.cash) 0 + R.foldl (fun s r => s + r.online) 0
        then _ else _) = _
      rw [if_pos hrev]
      rfl
  · show (R.map (fun r => r.department)).dedup.length = _
    exact (List.card_toFinset _).symm

/-- C5 witness: one list with positive amounts and one with a single zero-amount
record, exercising both percentage branches and the distinct-department count. -/
theorem C5_witness :
    (calculateKPIs [⟨"1/1/2025", "Kitchen", 30, 70⟩, ⟨"1/1/2025", "Kitchen", 0, 0⟩]).totalRevenue ≠ 0 ∧
    (calculateKPIs [⟨"1/1/2025", "Kitchen", 30, 70⟩, ⟨"1/1/2025", "Kitchen", 0, 0⟩]).cashPercentage
      = jsToFixed1 ((calculateKPIs [⟨"1/1/2025", "Kitchen", 30, 70⟩, ⟨"1/1/2025", "Kitchen", 0, 0⟩]).totalCash /
          (calculateKPIs [⟨"1/1/2025", "Kitchen", 30, 70⟩, ⟨"1/1/2025", "Kitchen", 0, 0⟩]).totalRevenue * 100) ∧
    (calculateKPIs [⟨"1/1/2025", "Kitchen", 30, 70⟩, ⟨"1/1/2025", "Kitchen", 0, 0⟩]).activeDepartments = 1 ∧
    (calculateKPIs [⟨"1/1/2025", "Kitchen", 30, 70⟩, ⟨"1/1/2025", "Kitchen", 0, 0⟩]).totalDepartments = 12 := by
  have hnn : ∀ r ∈ [(⟨"1/1/2025", "Kitchen", 30, 70⟩ : IncomeRecord), ⟨"1/1/2025", "Kitchen", 0, 0⟩],
      0 ≤ r.cash ∧ 0 ≤ r.online := by
    intro r hr
    rcases List.mem_cons.mp hr with h | h
    · rw [h]
      constructor <;> with_unfolding_all decide
    · simp only [List.mem_singleton] at h
      rw [h]
      constructor <;> with_unfolding_all decide
  have hspec := C5_calculateKPIs_spec
    [⟨"1/1/2025", "Kitchen", 30, 70⟩, ⟨"1/1/2025", "Kitchen", 0, 0⟩] hnn
  have hne : (calculateKPIs [(⟨"1/1/2025", "Kitchen", 30, 70⟩ : IncomeRecord),
      ⟨"1/1/2025", "Kitchen", 0, 0⟩]).totalRevenue ≠ 0 := by
    with_unfolding_all decide
  refine ⟨hne, (hspec.2.2.2.2.1 hne).1, ?_, ?_⟩
  · with_unfolding_all decide
  · with_unfolding_all decide

theorem ratio_ne_dashdash (s : String) : s ++ ":1" ≠ "--" := by
  intro h
  have hlen := congrArg String.length h
  rw [String.length_append] at hlen
  have h1 : (":1" : String).length = 2 := by decide
  have h2 : ("--" : String).length = 2 := by decide
  rw [h1, h2] at hlen
  have hs0 : s.length = 0 := by omega
  have hsempty : s = "" := by
    cases s with
    | mk data =>
      cases data with
      | nil => rfl
      | cons c cs => exact absurd hs0 (by simp [String.length])
  subst hsempty
  exact absurd h (by decide)

/-- C8: with the non-negative amounts of the data model, the ratio string of
calculateAnalytics is the literal dash-dash exactly when the summed online total
is zero, and otherwise is the cash total divided by the online total formatted
to two decimals with the colon-one suffix. -/
theorem C8_analytics_ratio (R : List IncomeRecord) (hnn : ∀ r ∈ R, 0 ≤ r.online) :
    ((calculateAnalytics R).cashOnlineRatio = "--" ↔ (R.map (fun r => r.online)).sum = 0) ∧
    ((R.map (fun r => r.online)).sum ≠ 0 →
      (calculateAnalytics R).cashOnlineRatio =
        jsToFixed2 ((R.map (fun r => r.cash)).sum / (R.map (fun r => r.online)).sum) ++ ":1") := by
  have hon : 0 ≤ (R.map (fun r => r.online)).sum := by
    apply List.sum_nonneg
    intro x hx
    rcases List.mem_map.mp hx with ⟨r, hr, hrx⟩
    rw [← hrx]
    exact hnn r hr
  rcases eq_or_ne R [] with hR | hR
  · subst hR
    constructor
    · constructor
      · intro _
        simp
      · intro _
        rfl
    · intro hne0
      simp at hne0
  · have hne : R.isEmpty = false := by
      cases R with
      | nil => exact absurd rfl hR
      | cons a l => rfl
    have hfoldo : R.foldl (fun s r => s + r.online) 0 = (R.map (fun r => r.online)).sum := by
      rw [foldl_add_eq_sum]
      ring
    have hfoldc : R.foldl (fun s r => s + r.cash) 0 = (R.map (fun r => r.cash)).sum := by
      rw [foldl_add_eq_sum]
      ring
    have hratio : (calculateAnalytics R).cashOnlineRatio =
        (if 0 < (R.map (fun r => r.online)).sum then
          jsToFixed2 ((R.map (fun r => r.cash)).sum / (R.map (fun r => r.online)).sum) ++ ":1"
         else "--") := by
      unfold calculateAnalytics
      rw [hne]
      simp only [Bool.false_eq_true, if_false]
      show (if 0 < R.foldl (fun s r => s + r.online) 0 then
          jsToFixed2 ((R.foldl (fun s r => s + r.cash) 0) /
            (R.foldl (fun s r => s + r.online) 0)) ++ ":1"
        else "--") = _
      rw [hfoldo, hfoldc]
    rw [hratio]
    by_cases hpos : 0 < (R.map (fun r => r.online)).sum
    · rw [if_pos hpos]
      constructor
      · constructor
        · intro habs
          exact absurd habs (ratio_ne_dashdash _)
        · intro h0
          rw [h0] at hpos
          exact absurd hpos (lt_irrefl 0)
      · intro _
        rfl
    · have h0 : (R.map (fun r => r.online)).sum = 0 := le_antisymm (not_lt.mp hpos) hon
      rw [if_neg hpos]
      constructor
      · constructor
        · intro _
          exact h0
        · intro _
          rfl
      · intro hcon
        exact absurd h0 hcon

/-- C8 witness: total cash three hundred against total online one hundred gives
the three-to-one ratio string of the spec scenario, and a zero online total
gives the dash-dash literal. -/
theorem C8_witness :
    (calculateAnalytics [⟨"1/1/2025", "Kitchen", 300, 100⟩]).cashOnlineRatio = "3.00:1" ∧
    (calculateAnalytics [⟨"1/1/2025", "Kitchen", 300, 0⟩]).cashOnlineRatio = "--" := by
  have h1 := C8_analytics_ratio [⟨"1/1/2025", "Kitchen", 300, 100⟩]
    (by
      intro r hr
      simp only [List.mem_singleton] at hr
      rw [hr]
      with_unfolding_all decide)
  have h2 := C8_analytics_ratio [⟨"1/1/2025", "Kitchen", 300, 0⟩]
    (by
      intro r hr
      simp only [List.mem_singleton] at hr
      rw [hr])
  constructor
  · rw [h1.2 (by with_unfolding_all decide)]
    with_unfolding_all decide
  · rw [h2.1.mpr (by with_unfolding_all decide)]

theorem weekStart_formula (todayNum : Int) :
    todayNum + (if (todayNum + 4) % 7 = 0 then (-6 : Int) else 1 - (todayNum + 4) % 7)
      = specWeekStart todayNum := by
  unfold specWeekStart jsGetDay
  split
  · rename_i h0
    rw [h0]
    omega
  · rename_i h0
    omega

theorem getDateRange_week (todayNum : Int) :
    getDateRange todayNum DateFilter.week
      = some (specWeekStart todayNum, specWeekStart todayNum + 6) := by
  have h1 : getDateRange todayNum DateFilter.week =
      some (todayNum + (if (todayNum + 4) % 7 = 0 then (-6 : Int) else 1 - (todayNum + 4) % 7),
        todayNum + (if (todayNum + 4) % 7 = 0 then (-6 : Int) else 1 - (todayNum + 4) % 7) + 6) :=
    rfl
  rw [h1, weekStart_formula]

/-- C4: the week filter keeps exactly the records whose parsed date lies between
the Monday of the current week and the following Sunday inclusive, where Monday
is the day the spec formula names, today minus the weekday index rotated to a
Monday start; the branchy Monday computation of the source equals that formula
for every day of the week, stated here as the computed range being exactly the
pair of the spec Monday and the Sunday six days later.  The two guards exclude
the constructor quirk that remaps years zero through ninety-nine, which cannot
arise for a clock after 1970. -/
theorem C4_filterDataByDate_week (todayNum : Int) (R : List IncomeRecord)
    (hs : ¬ (0 ≤ (civilFromDays (specWeekStart todayNum)).1 ∧
      (civilFromDays (specWeekStart todayNum)).1 ≤ 99))
    (he : ¬ (0 ≤ (civilFromDays (specWeekStart todayNum + 6)).1 ∧
      (civilFromDays (specWeekStart todayNum + 6)).1 ≤ 99)) :
    getDateRange todayNum DateFilter.week
        = some (specWeekStart todayNum, specWeekStart todayNum + 6) ∧
    filterDataByDate todayNum R DateFilter.week none none none =
      R.filter (fun r =>
        match parseDateString r.date with
        | some t => decide (specWeekStart todayNum ≤ t ∧ t ≤ specWeekStart todayNum + 6)
        | none => false) := by
  refine ⟨getDateRange_week todayNum, ?_⟩
  have h2 : filterDataByDate todayNum R DateFilter.week none none none =
      (match getDateRange todayNum DateFilter.week with
        | none => R
        | some (s, e) =>
          R.filter (fun r =>
            jsLeDate (parseDateString (formatDateForComparison s)) (parseDateString r.date) &&
            jsLeDate (parseDateString r.date) (parseDateString (formatDateForComparison e)))) :=
    rfl
  rw [h2, getDateRange_week todayNum]
  apply List.filter_congr
  intro r _
  rw [parseDateString_format _ hs, parseDateString_format _ he]
  cases hpd : parseDateString r.date with
  | none => rfl
  | some t =>
    show (decide (specWeekStart todayNum ≤ t) && decide (t ≤ specWeekStart todayNum + 6))
        = decide (specWeekStart todayNum ≤ t ∧ t ≤ specWeekStart todayNum + 6)
    by_cases h1 : specWeekStart todayNum ≤ t <;> by_cases h2 : t ≤ specWeekStart todayNum + 6 <;>
      simp [h1, h2]

/-- C4 witness: a concrete Wednesday, the eighth of October 2025 at epoch day
20369; the preceding Monday is the sixth and the following Sunday the twelfth,
and a list with one in-week record, one out-of-week record and one unparseable
record filters to exactly the in-week record. -/
theorem C4_witness :
    (getDateRange 20369 DateFilter.week
        = some (specWeekStart 20369, specWeekStart 20369 + 6) ∧
      filterDataByDate 20369
          [⟨"10/8/2025", "Kitchen", 1, 0⟩, ⟨"10/5/2025", "Boat", 2, 0⟩,
           ⟨"foo", "Hundi", 3, 0⟩] DateFilter.week none none none =
        [⟨"10/8/2025", "Kitchen", 1, 0⟩, ⟨"10/5/2025", "Boat", 2, 0⟩,
           ⟨"foo", "Hundi", 3, 0⟩].filter (fun r =>
          match parseDateString r.date with
          | some t => decide (specWeekStart 20369 ≤ t ∧ t ≤ specWeekStart 20369 + 6)
          | none => false)) ∧
    specWeekStart 20369 = 20367 ∧
    filterDataByDate 20369
        [⟨"10/8/2025", "Kitchen", 1, 0⟩, ⟨"10/5/2025", "Boat", 2, 0⟩,
         ⟨"foo", "Hundi", 3, 0⟩] DateFilter.week none none none =
      [⟨"10/8/2025", "Kitchen", 1, 0⟩] := by
  refine ⟨C4_filterDataByDate_week 20369 _ (by decide) (by decide), by decide, ?_⟩
  with_unfolding_all decide

theorem jsLeDate_none_right (a : Option Int) : jsLeDate a none = false := by
  cases a <;> rfl

theorem mem_cmp_filter_parse (R : List IncomeRecord) (a b : Option Int) :
    ∀ r ∈ R.filter (fun r =>
        jsLeDate a (parseDateString r.date) && jsLeDate (parseDateString r.date) b),
      (parseDateString r.date).isSome := by
  intro r hr
  have hp := List.of_mem_filter hr
  cases hpd : parseDateString r.date with
  | some t => rfl
  | none =>
    rw [hpd, jsLeDate_none_right] at hp
    simp at hp

/-- C10: filterDataByDate is total and safe: on every input it returns a
sublist of its input, and under every filter other than the all filter, namely
yesterday, week, month, year and a specific range with both ends supplied, a
record whose date string does not parse yields an invalid date whose
comparisons are all false, so the record is excluded rather than raising an
error. -/
theorem C10_filterDataByDate_safe (todayNum : Int) (R : List IncomeRecord)
    (f : DateFilter) (sd s e : Option String) :
    (filterDataByDate todayNum R f sd s e).Sublist R ∧
    ((f = DateFilter.yesterday ∨ f = DateFilter.week ∨ f = DateFilter.month ∨
        f = DateFilter.year ∨ (f = DateFilter.specific ∧ s ≠ none ∧ e ≠ none)) →
      ∀ r ∈ filterDataByDate todayNum R f sd s e, (parseDateString r.date).isSome) := by
  constructor
  · cases f <;> cases sd <;> cases s <;> cases e <;>
      first
        | exact List.Sublist.refl R
        | exact List.filter_sublist R
  · intro hcase r hr
    rcases hcase with h | h | h | h | ⟨h, hs, he⟩ <;> subst h
    · exact mem_cmp_filter_parse R _ _ r hr
    · exact mem_cmp_filter_parse R _ _ r hr
    · exact mem_cmp_filter_parse R _ _ r hr
    · exact mem_cmp_filter_parse R _ _ r hr
    · rcases Option.ne_none_iff_exists.mp hs with ⟨sv, hsv⟩
      rcases Option.ne_none_iff_exists.mp he with ⟨ev, hev⟩
      rw [← hsv, ← hev] at hr
      cases sd with
      | none => exact mem_cmp_filter_parse R _ _ r hr
      | some sdv => exact mem_cmp_filter_parse R _ _ r hr

/-- C10 witness: the week filter over a list holding an unparseable date
returns a sublist and every surviving record has a parseable date. -/
theorem C10_witness :
    (filterDataByDate 20369 [⟨"foo", "Kitchen", 1, 0⟩, ⟨"10/8/2025", "Boat", 2, 0⟩]
        DateFilter.week none none none).Sublist
      [⟨"foo", "Kitchen", 1, 0⟩, ⟨"10/8/2025", "Boat", 2, 0⟩] ∧
    ((DateFilter.week = DateFilter.yesterday ∨ DateFilter.week = DateFilter.week ∨
        DateFilter.week = DateFilter.month ∨ DateFilter.week = DateFilter.year ∨
        (DateFilter.week = DateFilter.specific ∧ (none : Option String) ≠ none ∧
          (none : Option String) ≠ none)) →
      ∀ r ∈ filterDataByDate 20369 [⟨"foo", "Kitchen", 1, 0⟩, ⟨"10/8/2025", "Boat", 2, 0⟩]
          DateFilter.week none none none, (parseDateString r.date).isSome) :=
  C10_filterDataByDate_safe 20369 [⟨"foo", "Kitchen", 1, 0⟩, ⟨"10/8/2025", "Boat", 2, 0⟩]
    DateFilter.week none none none

/-- C6 counterexample: the record date 01/01/2025 and the supplied legacy date
1/1/2025 denote the same calendar day, both parse to the same valid date value,
yet the legacy single-date mode returns the empty list because it compares the
raw strings, so the claim that it behaves as a day-granularity range filter with
both ends at that date is false at this input. -/
theorem C6_counterexample :
    filterDataByDate 0 [⟨"01/01/2025", "Kitchen", 1, 0⟩] DateFilter.specific
        (some "1/1/2025") none none = [] ∧
    parseDateString "01/01/2025" = parseDateString "1/1/2025" ∧
    (parseDateString "1/1/2025").isSome = true := by
  refine ⟨?_, ?_, ?_⟩
  · with_unfolding_all decide
  · decide
  · decide

/-- C6 amended: legacy single-date mode, a specific filter with only the single
date supplied, returns exactly the records whose raw date string equals the
supplied string; records denoting the same calendar day in another spelling are
not returned. -/
theorem C6_amended_legacy_exact_match (todayNum : Int) (R : List IncomeRecord) (d : String) :
    filterDataByDate todayNum R DateFilter.specific (some d) none none =
      R.filter (fun r => r.date == d) := rfl

/-- C7 counterexample: the empty list makes the record export throw instead of
producing output, and on a record whose department contains a double quote the
produced row does not follow the quote-and-double escaping policy the claim
states, because the record export always wraps the department in quotes without
doubling and never quotes the date. -/
theorem C7_counterexample :
    exportToCSV ([] : List IncomeRecord) = Except.error "No data to export" ∧
    exportToCSV [⟨"1/1/2025", "A\"B", 1, 2⟩] ≠
      Except.ok (String.intercalate "\n"
        [String.intercalate ","
          ["Date", "Department", "Cash Income", "Online Income", "Total Income"],
         String.intercalate "," [csvEscapeField "1/1/2025", csvEscapeField "A\"B",
           numToCell 1, numToCell 2, numToCell (1 + 2)]]) := by
  constructor
  · rfl
  · with_unfolding_all decide

/-- C7 amended: on a non-empty record list the record export produces the
delimited text whose rows follow the fixed column order of date, department,
cash, online and total with the total equal to cash plus online, where the
department field is always wrapped in double quotes without any escaping of
internal quotes or delimiters and the date and numeric fields are emitted raw;
the quote-and-double escaping policy exists only in the generic export path,
embedded as exportGenericToCSV, whose columns are the four record keys without
a computed total. -/
theorem C7_amended_export (data : List IncomeRecord) (h : data ≠ []) :
    exportToCSV data = Except.ok (String.intercalate "\n"
      (String.intercalate ","
          ["Date", "Department", "Cash Income", "Online Income", "Total Income"] ::
        data.map (fun r => String.intercalate ","
          [r.date, "\"" ++ r.department ++ "\"", numToCell r.cash, numToCell r.online,
            numToCell (r.cash + r.online)]))) ∧
    exportGenericToCSV data = Except.ok (String.intercalate "\n"
      ("date,department,cash,online" ::
        data.map (fun r => String.intercalate ","
          [csvEscapeField r.date, csvEscapeField r.department, numToCell r.cash,
            numToCell r.online]))) := by
  have hne : ¬ (data.isEmpty = true) := by
    cases data with
    | nil => exact absurd rfl h
    | cons a l => simp
  constructor
  · unfold exportToCSV
    rw [if_neg hne]
  · unfold exportGenericToCSV
    rw [if_neg hne]

/-- C7 witness: one concrete record through both export paths. -/
theorem C7_witness :
    exportToCSV [⟨"1/1/2025", "Kitchen", 1, 2⟩] = Except.ok (String.intercalate "\n"
      (String.intercalate ","
          ["Date", "Department", "Cash Income", "Online Income", "Total Income"] ::
        [(⟨"1/1/2025", "Kitchen", 1, 2⟩ : IncomeRecord)].map (fun r => String.intercalate ","
          [r.date, "\"" ++ r.department ++ "\"", numToCell r.cash, numToCell r.online,
            numToCell (r.cash + r.online)]))) ∧
    exportGenericToCSV [⟨"1/1/2025", "Kitchen", 1, 2⟩] = Except.ok (String.intercalate "\n"
      ("date,department,cash,online" ::
        [(⟨"1/1/2025", "Kitchen", 1, 2⟩ : IncomeRecord)].map (fun r => String.intercalate ","
          [csvEscapeField r.date, csvEscapeField r.department, numToCell r.cash,
            numToCell r.online]))) :=
  C7_amended_export [⟨"1/1/2025", "Kitchen", 1, 2⟩] (by intro hc; cases hc)

/-- C9 counterexample: a payload whose three headers match no column synonym
falls into the positional fallback, which throws on a header row shorter than
four columns, so ingestion fails the whole fetch even though the single data
row has non-empty date and department cells. -/
theorem C9_counterexample :
    parseGoogleSheetsData [["a", "b", "c"], ["1/1/2025", "Kitchen", "5"]] =
      Except.error "Spreadsheet must have at least 4 columns: Date, Department, Cash, Online" ∧
    (["1/1/2025", "Kitchen", "5"].getD 0 "" ≠ "" ∧
      ["1/1/2025", "Kitchen", "5"].getD 1 "" ≠ "") := by
  constructor
  · decide
  · decide

set_option maxHeartbeats 1000000 in
/-- C9 amended: for every payload whose header row resolves the four columns,
by the synonym matching or, failing that, by having at least four columns for
the positional fallback, ingestion returns exactly the data rows whose date and
department cells are non-empty, dropped silently otherwise, and every retained
row reads its amounts through parseFloat with a fallback of zero on an
unparseable cell. -/
theorem C9_parse_rows (headers : List String) (rows : List (List String)) :
    (∀ di dpi ci oi,
      findHeaderIdx headers dateNeedles = some di →
      findHeaderIdx headers departmentNeedles = some dpi →
      findHeaderIdx headers cashNeedles = some ci →
      findHeaderIdx headers onlineNeedles = some oi →
      parseGoogleSheetsData (headers :: rows) =
        Except.ok ((rows.filter (fun row =>
            !(row.getD di "").isEmpty && !(row.getD dpi "").isEmpty)).map
          (rowToRecord di dpi ci oi))) ∧
    ((findHeaderIdx headers dateNeedles = none ∨
        findHeaderIdx headers departmentNeedles = none ∨
        findHeaderIdx headers cashNeedles = none ∨
        findHeaderIdx headers onlineNeedles = none) →
      4 ≤ headers.length →
      parseGoogleSheetsData (headers :: rows) =
        Except.ok ((rows.filter (fun row =>
            !(row.getD 0 "").isEmpty && !(row.getD 1 "").isEmpty)).map
          (rowToRecord 0 1 2 3))) := by
  constructor
  · intro di dpi ci oi h1 h2 h3 h4
    cases rows with
    | nil => rfl
    | cons row0 rest =>
      have hstep : parseGoogleSheetsData (headers :: row0 :: rest) =
          (match findHeaderIdx headers dateNeedles, findHeaderIdx headers departmentNeedles,
              findHeaderIdx headers cashNeedles, findHeaderIdx headers onlineNeedles with
            | some di, some dpi, some ci, some oi =>
              Except.ok (((row0 :: rest).map (rowToRecord di dpi ci oi)).filter
                (fun q => !q.date.isEmpty && !q.department.isEmpty))
            | _, _, _, _ =>
              if headers.length < 4 then
                Except.error
                  "Spreadsheet must have at least 4 columns: Date, Department, Cash, Online"
              else
                Except.ok (((row0 :: rest).map (rowToRecord 0 1 2 3)).filter
                  (fun q => !q.date.isEmpty && !q.department.isEmpty))) := rfl
      have hok : (Except.ok (((row0 :: rest).map (rowToRecord di dpi ci oi)).filter
            (fun q => !q.date.isEmpty && !q.department.isEmpty)) :
            Except String (List IncomeRecord)) =
          Except.ok (((row0 :: rest).filter (fun row =>
              !(row.getD di "").isEmpty && !(row.getD dpi "").isEmpty)).map
            (rowToRecord di dpi ci oi)) := by
        rw [List.filter_map]
        rfl
      rw [hstep, h1, h2, h3, h4]
      exact hok
  · intro hnone hlen4
    cases rows with
    | nil => rfl
    | cons row0 rest =>
      have hlt : ¬ (headers.length < 4) := by omega
      have hstep : parseGoogleSheetsData (headers :: row0 :: rest) =
          (match findHeaderIdx headers dateNeedles, findHeaderIdx headers departmentNeedles,
              findHeaderIdx headers cashNeedles, findHeaderIdx headers onlineNeedles with
            | some di, some dpi, some ci, some oi =>
              Except.ok (((row0 :: rest).map (rowToRecord di dpi ci oi)).filter
                (fun q => !q.date.isEmpty && !q.department.isEmpty))
            | _, _, _, _ =>
              if headers.length < 4 then
                Except.error
                  "Spreadsheet must have at least 4 columns: Date, Department, Cash, Online"
              else
                Except.ok (((row0 :: rest).map (rowToRecord 0 1 2 3)).filter
                  (fun q => !q.date.isEmpty && !q.department.isEmpty))) := rfl
      have hfallback : (if headers.length < 4 then
            (Except.error
              "Spreadsheet must have at least 4 columns: Date, Department, Cash, Online" :
              Except String (List IncomeRecord))
          else
            Except.ok (((row0 :: rest).map (rowToRecord 0 1 2 3)).filter
              (fun q => !q.date.isEmpty && !q.department.isEmpty))) =
          Except.ok (((row0 :: rest).filter (fun row =>
              !(row.getD 0 "").isEmpty && !(row.getD 1 "").isEmpty)).map
            (rowToRecord 0 1 2 3)) := by
        rw [if_neg hlt, List.filter_map]
        rfl
      rw [hstep]
      rcases hd : findHeaderIdx headers dateNeedles with _ | di <;>
        rcases hp : findHeaderIdx headers departmentNeedles with _ | dpi <;>
        rcases hc : findHeaderIdx headers cashNeedles with _ | ci <;>
        rcases ho : findHeaderIdx headers onlineNeedles with _ | oi <;>
        first
          | exact hfallback
          | (simp only [hd, hp, hc, ho] at hnone
             simp at hnone)

/-- C9 witness: a payload with recognizable headers keeps the two complete rows,
drops the row with an empty date cell, and degrades the unparseable online cell
of the second row to zero; a payload with unrecognizable but four-wide headers
takes the positional fallback. -/
theorem C9_witness :
    parseGoogleSheetsData
        [["Date", "Department", "Cash", "Online"],
         ["1/1/2025", "Kitchen", "5", "2.5"],
         ["1/2/2025", "Boat", "x", "7"],
         ["", "Kitchen", "1", "1"]] =
      Except.ok (([["1/1/2025", "Kitchen", "5", "2.5"],
         ["1/2/2025", "Boat", "x", "7"],
         ["", "Kitchen", "1", "1"]].filter (fun row =>
          !(row.getD 0 "").isEmpty && !(row.getD 1 "").isEmpty)).map
        (rowToRecord 0 1 2 3)) ∧
    parseGoogleSheetsData
        [["w", "x", "y", "z"], ["1/1/2025", "Kitchen", "5", "2"]] =
      Except.ok (([["1/1/2025", "Kitchen", "5", "2"]].filter (fun row =>
          !(row.getD 0 "").isEmpty && !(row.getD 1 "").isEmpty)).map
        (rowToRecord 0 1 2 3)) ∧
    (rowToRecord 0 1 2 3 ["1/2/2025", "Boat", "x", "7"]).cash = 0 := by
  refine ⟨?_, ?_, ?_⟩
  · exact (C9_parse_rows ["Date", "Department", "Cash", "Online"] _).1 0 1 2 3
      (by decide) (by decide) (by decide) (by decide)
  · exact (C9_parse_rows ["w", "x", "y", "z"] _).2 (by left; decide) (by decide)
  · with_unfolding_all decide

end Dashboard
